import Mathlib

/-
Verification development for the MusicBrainz "Wikipedia to Wikidata Converter"
userscript (src/wikipedia-to-wikidata.user.js).

The script's core is shallowly embedded below:
  * the URL predicates and `parseWikipediaUrl` (source lines 232-258),
    including the relevant semantics of the JS builtin `decodeURIComponent`;
  * the identifier resolver `getWikidataUrlFromWikipedia` (lines 265-298),
    with the lookup service abstracted as a function and with an explicit
    count of transport calls (direct `fetchURL` calls vs calls through the
    rate-limited `callAPI` dispatcher);
  * the rate limiter `rateLimitedQueue` / `rateLimit` (lines 91-117), as a
    discrete-time model of the promise chain (`queue` settles at `chainTime`;
    `queue.then(() => delay(interval))` advances it by `interval`; the
    submitted operation is dispatched when the previous chain settles and its
    result is delivered to the caller on a separate promise branch);
  * `waitForElement` / `waitForElementRemoval` (lines 432-490), as a state
    machine over an explicit chronological list of MutationObserver
    notifications and the deadline-timer event;
  * the per-item conversion/removal procedure and the orchestrator
    `fixLinkURLEdit` (lines 564-717) and the entry guard `runOnURLEditPage`
    (lines 719-762), over an abstract page environment.
-/

namespace WpToWd

/-! ## Character and case-insensitive matching utilities

The source regexes all carry the `i` flag, so literal parts and the `[a-z]`
class match case-insensitively. -/

/-- ASCII letter, i.e. what `[a-z]` matches under the JS `i` flag. -/
def isAsciiLetterCI (c : Char) : Bool :=
  ('a' ≤ c && c ≤ 'z') || ('A' ≤ c && c ≤ 'Z')

/-- Lower-case an ASCII character, identity on everything else. -/
def asciiLowerChar (c : Char) : Char :=
  if 'A' ≤ c && c ≤ 'Z' then Char.ofNat (c.toNat + 32) else c

/-- Case-insensitively match a literal pattern (given in lower case) against
the head of the input; on success return the remaining input.  This models a
literal part of a JS regex under the `i` flag. -/
def stripLiteralCI : List Char → List Char → Option (List Char)
  | [], rest => some rest
  | _ :: _, [] => none
  | p :: ps, c :: cs => if asciiLowerChar c = p then stripLiteralCI ps cs else none

/-- Maximal run of ASCII letters at the head of the input, and the rest.
Models the greedy `([a-z]+)` group (the run is maximal; any shorter split
would leave a letter where the following literal `.` is required, so the
greedy match is the only possible one). -/
def takeLettersCI : List Char → List Char × List Char
  | [] => ([], [])
  | c :: cs =>
    if isAsciiLetterCI c then
      let r := takeLettersCI cs
      (c :: r.1, r.2)
    else ([], c :: cs)

/-- Match `https?:\/\/` at the head of the input (case-insensitively):
the literal `http`, an optional `s`, then `://`. -/
def stripScheme (cs : List Char) : Option (List Char) :=
  match stripLiteralCI "http".data cs with
  | none => none
  | some rest =>
    let rest2 := match rest with
      | c :: cs2 => if asciiLowerChar c = 's' then cs2 else rest
      | [] => rest
    stripLiteralCI "://".data rest2

/-! ## URL predicates (source lines 232-243) -/

/-- Source: `isWikipediaLink`, i.e.
`link.match(/^https?:\/\/([a-z]+)\.wikipedia\.org/i) !== null`. -/
def isWikipediaLink (link : String) : Bool :=
  match stripScheme link.data with
  | none => false
  | some rest =>
    let r := takeLettersCI rest
    !r.1.isEmpty && (stripLiteralCI ".wikipedia.org".data r.2).isSome

/-- After the scheme and the optional `www.`, match
`wikidata\.org\/wiki\/Q[0-9]+` (at least one digit; the match is a prefix
match, anything may follow). -/
def isWikidataLinkCore (rest : List Char) : Bool :=
  match stripLiteralCI "wikidata.org/wiki/q".data rest with
  | none => false
  | some r =>
    match r with
    | c :: _ => c.isDigit
    | [] => false

/-- Source: `isWikidataLink`, i.e.
`link.match(/^https?:\/\/(www\.)?wikidata\.org\/wiki\/Q[0-9]+/i) !== null`.
The optional group `(www\.)?` is an alternation: with the `www.` consumed or
without it. -/
def isWikidataLink (link : String) : Bool :=
  match stripScheme link.data with
  | none => false
  | some rest =>
    (match stripLiteralCI "www.".data rest with
     | some r => isWikidataLinkCore r
     | none => false) || isWikidataLinkCore rest

/-! ## decodeURIComponent (ECMA-262 Decode with an empty reserved set)

`parseWikipediaUrl` feeds the raw title capture to the JS builtin
`decodeURIComponent`, which throws a `URIError` on a malformed escape
sequence.  We model it as an `Option`-valued function: `none` is the thrown
`URIError`.  Percent escapes are decoded to bytes and byte sequences are
validated as strict UTF-8 (truncated escapes, bad continuation bytes,
overlong encodings, surrogates and values above U+10FFFF all throw). -/

/-- Value of a hexadecimal digit character (0-9, a-f, A-F), written over the
character's code point. -/
def hexDigitVal (c : Char) : Option Nat :=
  let n := c.toNat
  if 48 ≤ n && n ≤ 57 then some (n - 48)
  else if 97 ≤ n && n ≤ 102 then some (n - 87)
  else if 65 ≤ n && n ≤ 70 then some (n - 55)
  else none

/-- Parse a `%XX` escape at the head of the input, returning the byte value
and the remaining input. -/
def percentByte : List Char → Option (Nat × List Char)
  | '%' :: h1 :: h2 :: rest =>
    match hexDigitVal h1, hexDigitVal h2 with
    | some a, some b => some (16 * a + b, rest)
    | _, _ => none
  | _ => none

/-- Is `b` a UTF-8 continuation byte within `[lo, hi]`? -/
def contIn (b lo hi : Nat) : Bool := lo ≤ b && b ≤ hi

/-- Decode one UTF-8 multi-byte sequence whose (already read) lead byte is
`b ≥ 0x80`; the continuation bytes must themselves be `%XX` escapes
immediately following.  Returns the code point and the remaining input.
The ranges follow the strict UTF-8 table, which matches ECMA-262's
validation in `Decode`. -/
def decodeMultiByte (b : Nat) (cs : List Char) : Option (Nat × List Char) :=
  if 0xC2 ≤ b && b ≤ 0xDF then
    match percentByte cs with
    | some (c1, r1) =>
      if contIn c1 0x80 0xBF then some ((b - 0xC0) * 64 + (c1 - 0x80), r1) else none
    | none => none
  else if 0xE0 ≤ b && b ≤ 0xEF then
    match percentByte cs with
    | some (c1, r1) =>
      let lo1 := if b = 0xE0 then 0xA0 else 0x80
      let hi1 := if b = 0xED then 0x9F else 0xBF
      if contIn c1 lo1 hi1 then
        match percentByte r1 with
        | some (c2, r2) =>
          if contIn c2 0x80 0xBF then
            some ((b - 0xE0) * 4096 + (c1 - 0x80) * 64 + (c2 - 0x80), r2)
          else none
        | none => none
      else none
    | none => none
  else if 0xF0 ≤ b && b ≤ 0xF4 then
    match percentByte cs with
    | some (c1, r1) =>
      let lo1 := if b = 0xF0 then 0x90 else 0x80
      let hi1 := if b = 0xF4 then 0x8F else 0xBF
      if contIn c1 lo1 hi1 then
        match percentByte r1 with
        | some (c2, r2) =>
          if contIn c2 0x80 0xBF then
            match percentByte r2 with
            | some (c3, r3) =>
              if contIn c3 0x80 0xBF then
                some ((b - 0xF0) * 262144 + (c1 - 0x80) * 4096 + (c2 - 0x80) * 64 + (c3 - 0x80), r3)
              else none
            | none => none
          else none
        | none => none
      else none
    | none => none
  else none

/-- Main loop of `decodeURIComponent`.  The fuel starts at the input length;
every step consumes at least one character, so the fuel never runs out on a
call from `decodeURIComponentModel`. -/
def decodeLoop : Nat → List Char → Option (List Char)
  | _, [] => some []
  | 0, _ :: _ => none
  | fuel + 1, c :: cs =>
    if c = '%' then
      match percentByte (c :: cs) with
      | none => none
      | some (b, rest) =>
        if b < 0x80 then
          (decodeLoop fuel rest).map (fun t => Char.ofNat b :: t)
        else
          match decodeMultiByte b rest with
          | none => none
          | some (cp, rest2) => (decodeLoop fuel rest2).map (fun t => Char.ofNat cp :: t)
    else
      (decodeLoop fuel cs).map (fun t => c :: t)

/-- Model of the JS builtin `decodeURIComponent`; `none` models a thrown
`URIError`. -/
def decodeURIComponentModel (s : String) : Option String :=
  (decodeLoop s.length s.data).map fun cs => String.mk cs

/-! ## parseWikipediaUrl (source lines 250-258) -/

/-- Whether a character is matched by the JS regex `.` without the `s` flag
(anything except a line terminator). -/
def isRegexDot (c : Char) : Bool :=
  !(c = '\n' || c = '\r' || c = Char.ofNat 0x2028 || c = Char.ofNat 0x2029)

/-- The regex part of `parseWikipediaUrl`:
`wikipediaUrl.match(/^https?:\/\/([a-z]+)\.wikipedia\.org\/wiki\/(.+)$/i)`.
Returns the two captures (raw, before any decoding) on a match.  The title
capture `(.+)` must be nonempty, must contain no line terminator, and runs
to the end of the string. -/
def matchWikipediaArticle (url : String) : Option (String × String) :=
  match stripScheme url.data with
  | none => none
  | some rest =>
    let r := takeLettersCI rest
    if r.1.isEmpty then none
    else
      match stripLiteralCI ".wikipedia.org/wiki/".data r.2 with
      | none => none
      | some title =>
        if title.isEmpty then none
        else if title.all isRegexDot then some (String.mk r.1, String.mk title)
        else none

/-- Result of `parseWikipediaUrl`.  The source either returns an object
`{ language, title }`, returns `null` (no regex match), or lets a `URIError`
thrown by `decodeURIComponent(match[2])` escape. -/
inductive ParseOutcome
  | ok (language title : String)
  | nullResult
  | uriError
  deriving DecidableEq

/-- Source: `parseWikipediaUrl` (lines 250-258).  The `decodeURIComponent`
call sits outside any try block, so its `URIError` escapes to the caller of
`parseWikipediaUrl`. -/
def parseWikipediaUrl (wikipediaUrl : String) : ParseOutcome :=
  match matchWikipediaArticle wikipediaUrl with
  | none => .nullResult
  | some (lang, rawTitle) =>
    match decodeURIComponentModel rawTitle with
    | none => .uriError
    | some t => .ok lang t

/-! ## getWikidataUrlFromWikipedia (source lines 265-298) -/

/-- Abstract reply of the Wikipedia pageprops API call, as observed through
`fetchURL` and `JSON.parse`:
  * `transportFailure`: `fetchURL` rejected (HTTP status ≥ 400, abort,
    network error or timeout) or the response body was not parseable — the
    generic failure caught by the resolver's catch block;
  * `pageMissing`: the pages object's first key is `"-1"`;
  * `page item`: a page object whose `pageprops?.wikibase_item` is `item`. -/
inductive LookupReply
  | transportFailure
  | pageMissing
  | page (wikibaseItem : Option String)
  deriving DecidableEq

/-- Outcome of `getWikidataUrlFromWikipedia`.  The three `failed*`
constructors correspond to errors thrown inside the try block, which the
catch re-wraps with the message prefix `"Failed to get Wikidata ID: "`.
`invalidFormatError` and `uriError` arise before the try block and are NOT
wrapped. -/
inductive ResolveOutcome
  | ok (wikidataUrl : String)
  | invalidFormatError
  | uriError
  | failedNotFound
  | failedNoMapping
  | failedTransport
  deriving DecidableEq

/-- How many transport calls a resolution made, split by mechanism:
`directFetchCalls` counts calls through `fetchURL` (plain GM_xmlhttpRequest,
not paced), `dispatcherCalls` counts calls through the rate-limited
`callAPI = rateLimit(fetch, 1000)` dispatcher (used only by `fetchFromAPI`
for the MusicBrainz API, never by the resolver). -/
structure CallCounts where
  directFetchCalls : Nat
  dispatcherCalls : Nat
  deriving DecidableEq

/-- Source: `getWikidataUrlFromWikipedia` (lines 265-298), with the Wikipedia
pageprops API abstracted as `service language title`.  The single lookup is
issued through `fetchURL` — not through the rate-limited dispatcher — and no
failure is retried. -/
def getWikidataUrlFromWikipedia (service : String → String → LookupReply)
    (wikipediaUrl : String) : ResolveOutcome × CallCounts :=
  match parseWikipediaUrl wikipediaUrl with
  | .nullResult => (.invalidFormatError, ⟨0, 0⟩)
  | .uriError => (.uriError, ⟨0, 0⟩)
  | .ok lang title =>
    match service lang title with
    | .transportFailure => (.failedTransport, ⟨1, 0⟩)
    | .pageMissing => (.failedNotFound, ⟨1, 0⟩)
    | .page none => (.failedNoMapping, ⟨1, 0⟩)
    | .page (some q) => (.ok ("https://www.wikidata.org/wiki/" ++ q), ⟨1, 0⟩)

/-! ## Rate limiter (source lines 91-117)

`rateLimitedQueue(operation, interval)` keeps a promise `queue`, initially
resolved.  Submitting an operation dispatches it when the current `queue`
settles (`const result = queue.then(() => operation(...args))`) and extends
the chain by one pacing delay
(`queue = queue.then(() => delay(interval), () => delay(interval))`) — note
the chain is built from delays only, so the chain (and hence every later
dispatch) never waits for an operation to complete, and advances identically
whether operations succeed or fail.  The caller's promise is the separate
`result` branch, which settles with the operation's own outcome.

We model the chain by its settle time `chainTime` (in milliseconds from the
chain's start, submissions being issued back to back), so a submission
dispatches at `chainTime` and leaves a chain settling at `chainTime + I`. -/

/-- The promise chain of one `rateLimitedQueue`, represented by the time at
which it settles. -/
structure PacingQueue where
  chainTime : Nat
  deriving DecidableEq

/-- One submission to a `rateLimitedQueue`: the dispatch time of the
operation, and the queue state afterwards. -/
def submitQueue (I : Nat) (s : PacingQueue) : Nat × PacingQueue :=
  (s.chainTime, ⟨s.chainTime + I⟩)

/-- Queue state after `m` back-to-back submissions. -/
def queueAfter (I : Nat) : Nat → PacingQueue
  | 0 => ⟨0⟩
  | m + 1 => (submitQueue I (queueAfter I m)).2

/-- Dispatch time of the `m`-th (0-based) submission to a single queue. -/
def queueDispatchTime (I m : Nat) : Nat :=
  (submitQueue I (queueAfter I m)).1

/-- Submissions carrying their settled outcomes: each caller's promise
(`result = queue.then(() => operation(...))`) settles with the operation's
own outcome, while the pacing chain advances independently of it. -/
def queueRunOps {ε α : Type} (I : Nat) (s : PacingQueue) :
    List (Except ε α) → List (Except ε α × Nat)
  | [] => []
  | op :: rest => (op, (submitQueue I s).1) :: queueRunOps I (submitQueue I s).2 rest

/-- Submissions carrying their running durations: for each operation, the
pair (dispatch time, completion time = dispatch + duration).  The chain
advance does not involve the duration. -/
def queueRunTimed (I : Nat) (s : PacingQueue) : List Nat → List (Nat × Nat)
  | [] => []
  | d :: rest =>
    ((submitQueue I s).1, (submitQueue I s).1 + d) :: queueRunTimed I (submitQueue I s).2 rest

/-- State of `rateLimit(operation, interval, K)` for `K > 1`: the `queues`
array (each entry modelled by its chain settle time) and the round-robin
cursor `queueIndex`. -/
structure RateLimitState where
  chain : Nat → Nat
  queueIndex : Nat

/-- One submission through the multi-queue `rateLimit`:
`queueIndex = (queueIndex + 1) % K; return queues[queueIndex](...args)`.
Returns ((lane used, dispatch time), next state). -/
def rateLimitSubmit (I K : Nat) (d : RateLimitState) : (Nat × Nat) × RateLimitState :=
  let i := (d.queueIndex + 1) % K
  ((i, d.chain i), ⟨fun j => if j = i then d.chain i + I else d.chain j, i⟩)

/-- Multi-queue state after `m` back-to-back submissions. -/
def rateLimitAfter (I K : Nat) : Nat → RateLimitState
  | 0 => ⟨fun _ => 0, 0⟩
  | m + 1 => (rateLimitSubmit I K (rateLimitAfter I K m)).2

/-- Lane used by the `m`-th (0-based) submission through the multi-queue
path of `rateLimit`. -/
def multiLaneOf (I K m : Nat) : Nat :=
  ((rateLimitSubmit I K (rateLimitAfter I K m)).1).1

/-- Dispatch time of the `m`-th (0-based) submission through the multi-queue
path of `rateLimit`. -/
def multiDispatchTime (I K m : Nat) : Nat :=
  ((rateLimitSubmit I K (rateLimitAfter I K m)).1).2

/-- Number of submissions before the `m`-th that were routed to lane `i`. -/
def priorOnLane (K m i : Nat) : Nat :=
  ((List.range m).filter fun j => (j + 1) % K == i).length

/-- Lane used by the `m`-th submission under `rateLimit` with `K` lanes:
the source special-cases `requestsPerInterval == 1` to a single
`rateLimitedQueue` (one lane, index 0), otherwise uses the queues array. -/
def rateLimitLaneOf (I K m : Nat) : Nat :=
  if K = 1 then 0 else multiLaneOf I K m

/-- Dispatch time of the `m`-th submission under `rateLimit` with `K`
lanes, following the same `K = 1` special case as the source. -/
def rateLimitTimeOf (I K m : Nat) : Nat :=
  if K = 1 then queueDispatchTime I m else multiDispatchTime I K m

lemma queueAfter_chainTime (I m : Nat) : (queueAfter I m).chainTime = m * I := by
  induction m with
  | zero => simp [queueAfter]
  | succ m ih => simp [queueAfter, submitQueue, ih, Nat.succ_mul]

lemma queueDispatchTime_eq (I m : Nat) : queueDispatchTime I m = m * I := by
  simp [queueDispatchTime, submitQueue, queueAfter_chainTime]

lemma queueRunOps_map_fst {ε α : Type} (I : Nat) (s : PacingQueue)
    (ops : List (Except ε α)) : (queueRunOps I s ops).map Prod.fst = ops := by
  induction ops generalizing s with
  | nil => rfl
  | cons op rest ih => simp [queueRunOps, ih]

lemma queueRunOps_map_snd {ε α : Type} (I : Nat) (s : PacingQueue)
    (ops : List (Except ε α)) :
    (queueRunOps I s ops).map Prod.snd
      = (List.range ops.length).map (fun k => s.chainTime + k * I) := by
  induction ops generalizing s with
  | nil => rfl
  | cons op rest ih =>
    rw [List.length_cons, List.range_succ_eq_map, List.map_cons, List.map_map]
    simp only [queueRunOps, List.map_cons, submitQueue, ih]
    congr 1
    · simp
    · apply List.map_congr_left
      intro k _
      simp only [Function.comp_apply, Nat.succ_eq_add_one]
      ring

lemma queueRunTimed_get? (I : Nat) (s : PacingQueue) (durs : List Nat) (n : Nat) :
    (queueRunTimed I s durs).get? n
      = (durs.get? n).map (fun d => (s.chainTime + n * I, s.chainTime + n * I + d)) := by
  induction durs generalizing s n with
  | nil => simp [queueRunTimed]
  | cons d rest ih =>
    cases n with
    | zero => simp [queueRunTimed, submitQueue]
    | succ n =>
      have h : s.chainTime + I + n * I = s.chainTime + (n + 1) * I := by ring
      simp only [queueRunTimed, List.get?, ih, submitQueue, h]

lemma queueRunTimed_map_fst (I : Nat) (s : PacingQueue) (durs : List Nat) :
    (queueRunTimed I s durs).map Prod.fst
      = (List.range durs.length).map fun k => s.chainTime + k * I := by
  induction durs generalizing s with
  | nil => rfl
  | cons d rest ih =>
    rw [List.length_cons, List.range_succ_eq_map, List.map_cons, List.map_map]
    simp only [queueRunTimed, List.map_cons, submitQueue, ih]
    congr 1
    · simp
    · apply List.map_congr_left
      intro k _
      simp only [Function.comp_apply, Nat.succ_eq_add_one]
      ring

lemma queueRunTimed_zero_get? (I : Nat) (durs : List Nat) (n : Nat) :
    (queueRunTimed I ⟨0⟩ durs).get? n
      = (durs.get? n).map fun d => (n * I, n * I + d) := by
  rw [queueRunTimed_get?]
  simp

lemma priorOnLane_succ (K m i : Nat) :
    priorOnLane K (m + 1) i
      = priorOnLane K m i + (if (m + 1) % K = i then 1 else 0) := by
  simp only [priorOnLane, List.range_succ, List.filter_append]
  by_cases h : (m + 1) % K = i
  · simp [h]
  · simp [h]

lemma priorOnLane_le (K i : Nat) : ∀ {a b : Nat}, a ≤ b →
    priorOnLane K a i ≤ priorOnLane K b i := by
  intro a b h
  induction h with
  | refl => exact le_refl _
  | step _ ih =>
    rw [priorOnLane_succ]
    exact le_trans ih (Nat.le_add_right _ _)

lemma rateLimitAfter_queueIndex (I K m : Nat) :
    (rateLimitAfter I K m).queueIndex = m % K := by
  induction m with
  | zero => simp [rateLimitAfter, Nat.zero_mod]
  | succ m ih => simp [rateLimitAfter, rateLimitSubmit, ih, Nat.mod_add_mod]

lemma rateLimitAfter_chain (I K m : Nat) : ∀ i,
    (rateLimitAfter I K m).chain i = priorOnLane K m i * I := by
  induction m with
  | zero => intro i; simp [rateLimitAfter, priorOnLane]
  | succ m ih =>
    intro i
    have hqi : ((rateLimitAfter I K m).queueIndex + 1) % K = (m + 1) % K := by
      rw [rateLimitAfter_queueIndex, Nat.mod_add_mod]
    simp only [rateLimitAfter, rateLimitSubmit]
    rw [hqi, priorOnLane_succ]
    by_cases h : i = (m + 1) % K
    · subst h
      simp [ih, Nat.add_mul, Nat.one_mul]
    · have h2 : ¬ (m + 1) % K = i := fun hc => h hc.symm
      simp [h, h2, ih]

lemma multiLaneOf_eq (I K m : Nat) : multiLaneOf I K m = (m + 1) % K := by
  simp [multiLaneOf, rateLimitSubmit, rateLimitAfter_queueIndex, Nat.mod_add_mod]

lemma multiDispatchTime_eq (I K m : Nat) :
    multiDispatchTime I K m = priorOnLane K m ((m + 1) % K) * I := by
  simp [multiDispatchTime, rateLimitSubmit, rateLimitAfter_queueIndex,
    Nat.mod_add_mod, rateLimitAfter_chain]

lemma priorOnLane_one (m : Nat) : priorOnLane 1 m 0 = m := by
  unfold priorOnLane
  rw [List.filter_eq_self.mpr]
  · exact List.length_range m
  · intro a _
    simp [Nat.mod_one]

/-! ## waitForElement / waitForElementRemoval (source lines 432-490)

Both functions create a promise, a `MutationObserver` and a deadline timer,
and settle the promise at most once.  We model their run as a fold of a step
function over the chronological list of external events delivered to them: a
MutationObserver notification carrying the surface state at that moment, or
the firing of the deadline timer.  The element check `qs(selector, parent)`
is abstracted as a function on the surface state. -/

/-- An external event delivered to a waiter: a MutationObserver callback
invocation (carrying the surface state seen by `qs` at that moment), or the
deadline timer firing. -/
inductive WaitEvent (σ : Type)
  | notify (s : σ)
  | timerFire
  deriving DecidableEq

/-- How a waiter promise settled: `resolvedWith a` for `resolve(a)`,
`timedOut` for the rejection with the timeout error. -/
inductive WaitOutcome (α : Type)
  | resolvedWith (a : α)
  | timedOut
  deriving DecidableEq

/-- Observable state of one waiter: `settled = none` while the promise is
pending, otherwise the (unique) settlement; `connected` is whether the
MutationObserver is still observing; `timerActive` is whether the
`setTimeout` timer is still pending (not yet fired and not cleared). -/
structure WaitState (α : Type) where
  settled : Option (WaitOutcome α)
  connected : Bool
  timerActive : Bool
  deriving DecidableEq

/-- Settle a promise: a promise settles only once, so a later settle attempt
leaves an already settled value unchanged. -/
def settlePromise {α : Type} (old : Option (WaitOutcome α)) (v : WaitOutcome α) :
    Option (WaitOutcome α) :=
  match old with
  | some r => some r
  | none => some v

/-- One event step of `waitForElement`: the observer callback re-runs the
check and, on success, disconnects, clears the timer and resolves; the timer,
if still active, disconnects the observer and rejects with the timeout
error.  A disconnected observer receives no callbacks and a cleared timer
never fires. -/
def stepAppearance {σ α : Type} (check : σ → Option α) (st : WaitState α) :
    WaitEvent σ → WaitState α
  | .notify s =>
    if st.connected then
      match check s with
      | some a => ⟨settlePromise st.settled (.resolvedWith a), false, false⟩
      | none => st
    else st
  | .timerFire =>
    if st.timerActive then ⟨settlePromise st.settled .timedOut, false, false⟩
    else st

/-- Source: `waitForElement` (lines 432-458).  The observer and the timer are
set up first; then the immediate check runs (`// Check immediately in case
the element is already there`) and, if the element is present, disconnects
everything and resolves; afterwards events are processed in order. -/
def waitForElementRun {σ α : Type} (check : σ → Option α) (s0 : σ)
    (events : List (WaitEvent σ)) : WaitState α :=
  let setup : WaitState α := ⟨none, true, true⟩
  let afterCheck : WaitState α :=
    match check s0 with
    | some a => ⟨some (.resolvedWith a), false, false⟩
    | none => setup
  events.foldl (stepAppearance check) afterCheck

/-- One event step of `waitForElementRemoval`: the observer callback re-runs
the presence check and, once the element is gone, disconnects, clears the
timer and resolves (with no value); the timer behaves as in
`stepAppearance`. -/
def stepRemoval {σ : Type} (present : σ → Bool) (st : WaitState Unit) :
    WaitEvent σ → WaitState Unit
  | .notify s =>
    if st.connected then
      if present s then st
      else ⟨settlePromise st.settled (.resolvedWith ()), false, false⟩
    else st
  | .timerFire =>
    if st.timerActive then ⟨settlePromise st.settled .timedOut, false, false⟩
    else st

/-- Source: `waitForElementRemoval` (lines 467-490).  The immediate check
runs before anything is set up (`// Check immediately if element is already
gone`): if the element is already absent the promise resolves and no
observer or timer is ever created. -/
def waitForElementRemovalRun {σ : Type} (present : σ → Bool) (s0 : σ)
    (events : List (WaitEvent σ)) : WaitState Unit :=
  if present s0 then
    events.foldl (stepRemoval present) ⟨none, true, true⟩
  else ⟨some (.resolvedWith ()), false, false⟩

/-- A waiter state with its observer disconnected and its timer cleared is
frozen: no event can change it. -/
lemma stepAppearance_frozen {σ α : Type} (check : σ → Option α)
    (st : WaitState α) (hc : st.connected = false) (ht : st.timerActive = false)
    (e : WaitEvent σ) : stepAppearance check st e = st := by
  cases e with
  | notify s => simp [stepAppearance, hc]
  | timerFire => simp [stepAppearance, ht]

lemma foldl_stepAppearance_frozen {σ α : Type} (check : σ → Option α)
    (st : WaitState α) (hc : st.connected = false) (ht : st.timerActive = false)
    (events : List (WaitEvent σ)) :
    events.foldl (stepAppearance check) st = st := by
  induction events with
  | nil => rfl
  | cons e rest ih => rw [List.foldl_cons, stepAppearance_frozen check st hc ht e]; exact ih

/-- Invariant of every reachable appearance-waiter state: once the promise is
settled, the observer is disconnected and the timer is cleared. -/
def waitInvariant {α : Type} (st : WaitState α) : Prop :=
  st.settled.isSome = true → st.connected = false ∧ st.timerActive = false

lemma stepAppearance_invariant {σ α : Type} (check : σ → Option α)
    (st : WaitState α) (h : waitInvariant st) (e : WaitEvent σ) :
    waitInvariant (stepAppearance check st e) := by
  cases e with
  | notify s =>
    by_cases hc : st.connected
    · simp only [stepAppearance, hc, if_true]
      cases check s with
      | none => exact h
      | some a => intro _; exact ⟨rfl, rfl⟩
    · simp only [stepAppearance, hc]
      simpa using h
  | timerFire =>
    by_cases ht : st.timerActive
    · simp only [stepAppearance, ht, if_true]
      intro _; exact ⟨rfl, rfl⟩
    · simp only [stepAppearance, ht]
      simpa using h

lemma foldl_stepAppearance_invariant {σ α : Type} (check : σ → Option α)
    (st : WaitState α) (h : waitInvariant st) (events : List (WaitEvent σ)) :
    waitInvariant (events.foldl (stepAppearance check) st) := by
  induction events generalizing st with
  | nil => exact h
  | cons e rest ih =>
    rw [List.foldl_cons]
    exact ih _ (stepAppearance_invariant check st h e)

lemma waitForElementRun_invariant {σ α : Type} (check : σ → Option α) (s0 : σ)
    (events : List (WaitEvent σ)) :
    waitInvariant (waitForElementRun check s0 events) := by
  unfold waitForElementRun
  apply foldl_stepAppearance_invariant
  cases h0 : check s0 with
  | none => intro hs; simp at hs
  | some a => intro _; exact ⟨rfl, rfl⟩

/-- Same frozen-state and invariant facts for the removal waiter. -/
lemma stepRemoval_frozen {σ : Type} (present : σ → Bool)
    (st : WaitState Unit) (hc : st.connected = false) (ht : st.timerActive = false)
    (e : WaitEvent σ) : stepRemoval present st e = st := by
  cases e with
  | notify s => simp [stepRemoval, hc]
  | timerFire => simp [stepRemoval, ht]

lemma foldl_stepRemoval_frozen {σ : Type} (present : σ → Bool)
    (st : WaitState Unit) (hc : st.connected = false) (ht : st.timerActive = false)
    (events : List (WaitEvent σ)) :
    events.foldl (stepRemoval present) st = st := by
  induction events with
  | nil => rfl
  | cons e rest ih => rw [List.foldl_cons, stepRemoval_frozen present st hc ht e]; exact ih

/-- Notifications whose state does not satisfy the check leave a pending
appearance waiter untouched. -/
lemma foldl_stepAppearance_no_hit {σ α : Type} (check : σ → Option α)
    (ns : List σ) (h : ∀ s ∈ ns, check s = none) :
    (ns.map WaitEvent.notify).foldl (stepAppearance check) ⟨none, true, true⟩
      = (⟨none, true, true⟩ : WaitState α) := by
  induction ns with
  | nil => rfl
  | cons s rest ih =>
    rw [List.map_cons, List.foldl_cons]
    have hs : check s = none := h s (List.mem_cons_self s rest)
    have hstep : stepAppearance check ⟨none, true, true⟩ (.notify s)
        = (⟨none, true, true⟩ : WaitState α) := by
      simp [stepAppearance, hs]
    rw [hstep]
    exact ih fun s2 hs2 => h s2 (List.mem_cons_of_mem s hs2)

/-- Processing additional events continues the fold from the reached
state. -/
lemma waitForElementRun_append {σ α : Type} (check : σ → Option α) (s0 : σ)
    (events more : List (WaitEvent σ)) :
    waitForElementRun check s0 (events ++ more)
      = more.foldl (stepAppearance check) (waitForElementRun check s0 events) := by
  unfold waitForElementRun
  rw [List.foldl_append]

/-- Notifications whose state still satisfies the presence check leave a
pending removal waiter untouched. -/
lemma foldl_stepRemoval_still_present {σ : Type} (present : σ → Bool)
    (ns : List σ) (h : ∀ s ∈ ns, present s = true) :
    (ns.map WaitEvent.notify).foldl (stepRemoval present) ⟨none, true, true⟩
      = (⟨none, true, true⟩ : WaitState Unit) := by
  induction ns with
  | nil => rfl
  | cons s rest ih =>
    rw [List.map_cons, List.foldl_cons]
    have hs : present s = true := h s (List.mem_cons_self s rest)
    have hstep : stepRemoval present ⟨none, true, true⟩ (.notify s)
        = (⟨none, true, true⟩ : WaitState Unit) := by
      simp [stepRemoval, hs]
    rw [hstep]
    exact ih fun s2 hs2 => h s2 (List.mem_cons_of_mem s hs2)

/-! ## Relationship conversion and the orchestrator (source lines 564-717)

`fixLinkURLEdit` resolves the URL, rewrites the input field, then walks the
`.relationship-item` entries of the relationship editor.  We abstract the
page as plain data: for each item, which controls exist and how the dialog
interaction would go; for the page, whether the relationship editor, the
make-votable checkbox and the submit button exist.  The externally
observable behaviour is captured as an action trace plus the final values of
the source's local flags. -/

/-- Per-item environment: what the page holds for one `.relationship-item`
and how the dialog interaction plays out for it.
  * `hasEditButton`: `item.querySelector(".edit-item")` is non-null;
  * `dialogAppears`: `waitForElement("#edit-relationship-dialog", …, 5000)`
    resolves (the dialog shows up in time);
  * `dialogHandledOk`: `handleRelationshipDialog` returns normally and
    `waitForElementRemoval(…, 5000)` resolves (the dialog closes in time);
  * `dialogStillPresent`: during error recovery,
    `qs("#edit-relationship-dialog")` still finds the dialog;
  * `doneButtonPresent`: that dialog has a `div.buttons > div > button`;
  * `hasRemoveButton`: `item.querySelector(".remove-item")` is non-null. -/
structure RelItemEnv where
  hasEditButton : Bool
  dialogAppears : Bool
  dialogHandledOk : Bool
  dialogStillPresent : Bool
  doneButtonPresent : Bool
  hasRemoveButton : Bool
  deriving DecidableEq

/-- Terminal outcome recorded for one relationship item (the spec's
RelationshipItem.outcome).  `noControl` is the trivially-handled case of an
item without the needed control in the convert branch; `pending` is the
initial state, which no completed run may leave behind. -/
inductive ItemOutcome
  | pending
  | converted
  | removed
  | failed
  | noControl
  deriving DecidableEq

/-- Externally visible actions of a run, in order. -/
inductive Action
  | networkLookup     -- the resolver's fetchURL call to the Wikipedia API
  | setUrlInput       -- setReactInputValue(urlInput, wikidataURL)
  | clickEditItem     -- editButton.click()
  | clickDialogDone   -- recovery: doneButton.click() on the stuck dialog
  | clickRemoveItem   -- removeButton.click()
  | checkVotable      -- makeVotableCheckbox.checked = true (+ change event)
  | clickSubmit       -- submitButton.click()
  | reportError       -- displayError(...)
  deriving DecidableEq

/-- Convert-mode processing of one item (source lines 590-628).  The success
path opens the dialog, drives it and waits for it to close; any failure in
that try block is caught locally and triggers at most one best-effort
recovery click on the dialog's commit (done) button, if the dialog is still
present and has one; either way the item ends terminal.  Returns the item's
outcome and the actions taken. -/
def convertItem (it : RelItemEnv) : ItemOutcome × List Action :=
  if it.hasEditButton then
    if it.dialogAppears && it.dialogHandledOk then
      (.converted, [.clickEditItem])
    else
      (.failed,
        .clickEditItem ::
          (if it.dialogStillPresent && it.doneButtonPresent then [.clickDialogDone] else []))
  else
    (.noControl, [])

/-- The convert loop over all items (source lines 586-629).  Every branch of
the loop body — success (line 600), caught failure after recovery (line 623)
and missing edit button (line 626) — increments
`relationshipsProcessedCount`, which the third component records. -/
def convertLoop : List RelItemEnv → List ItemOutcome × Nat × List Action
  | [] => ([], 0, [])
  | it :: rest =>
    let r := convertItem it
    let rec' := convertLoop rest
    (r.1 :: rec'.1, rec'.2.1 + 1, r.2 ++ rec'.2.2)

/-- The removal loop (source lines 670-691): items with a remove button are
clicked and counted removed; an item without one sets
`relationshipsSuccessfullyRemoved = false` (abstracted as outcome
`failed`).  Returns outcomes, the final flag, and the actions. -/
def removeLoop : List RelItemEnv → List ItemOutcome × Bool × List Action
  | [] => ([], true, [])
  | it :: rest =>
    let rec' := removeLoop rest
    if it.hasRemoveButton then
      (.removed :: rec'.1, rec'.2.1, .clickRemoveItem :: rec'.2.2)
    else
      (.failed :: rec'.1, false, rec'.2.2)

/-- Page-level environment for `fixLinkURLEdit`. -/
structure PageEnv where
  urlValue : String            -- urlInput.value at click time
  hasRelationshipEditor : Bool -- qs("#relationship-editor") is non-null
  items : List RelItemEnv      -- the .relationship-item entries inside the tr.wikipedia-page-for rows, in order
  makeVotablePresent : Bool    -- qs("#id-edit-url.make_votable") is non-null
  submitButtonPresent : Bool   -- qs("button.submit.positive") is non-null
  deriving DecidableEq

/-- Observable result of one `fixLinkURLEdit` run: the final values of the
source's local flags, the per-item terminal outcomes (convert-branch items,
or removal-branch items), and the full action trace. -/
structure RunResult where
  conversionSuccessful : Bool
  allRelationshipsHandled : Bool
  relationshipsSuccessfullyRemoved : Bool
  outcomes : List ItemOutcome
  votableChecked : Bool
  submitted : Bool
  trace : List Action
  deriving DecidableEq

/-- The finalize step shared by both branches (lines 646-662 and 697-711):
check the make-votable checkbox if present, then click submit if present. -/
def finalizeActions (env : PageEnv) : List Action :=
  (if env.makeVotablePresent then [Action.checkVotable] else []) ++
    (if env.submitButtonPresent then [Action.clickSubmit] else [])

/-- Source: `fixLinkURLEdit` (lines 564-717), with the Wikipedia lookup
service abstracted as in `getWikidataUrlFromWikipedia`.  The outer try/catch
around the resolution also catches a `URIError` escaping from
`parseWikipediaUrl`, so every non-`ok` resolution lands in the
`conversionSuccessful = false` branch of the `finally` block. -/
def fixLinkURLEdit (service : String → String → LookupReply) (env : PageEnv) :
    RunResult :=
  let res := getWikidataUrlFromWikipedia service env.urlValue
  let lookupActs : List Action := List.replicate res.2.directFetchCalls .networkLookup
  match res.1 with
  | .ok _ =>
    -- conversionSuccessful = true; the primary reference is rewritten in place
    let loop := if env.hasRelationshipEditor then convertLoop env.items else ([], 0, [])
    let total := if env.hasRelationshipEditor then env.items.length else 0
    -- if there is no relationship editor, the source sets the flag directly
    let allHandled := if env.hasRelationshipEditor then loop.2.1 == total else true
    let finalActs := if allHandled then finalizeActions env else []
    { conversionSuccessful := true
      allRelationshipsHandled := allHandled
      relationshipsSuccessfullyRemoved := true  -- never computed in this branch
      outcomes := loop.1
      votableChecked := allHandled && env.makeVotablePresent
      submitted := allHandled && env.submitButtonPresent
      trace := lookupActs ++ [.setUrlInput] ++ loop.2.2 ++ finalActs }
  | _ =>
    -- catch: displayError(row, error, ...); conversionSuccessful = false
    let loop := if env.hasRelationshipEditor then removeLoop env.items else ([], true, [])
    let removedAll := loop.2.1
    let finalActs := if removedAll then finalizeActions env else []
    { conversionSuccessful := false
      allRelationshipsHandled := false
      relationshipsSuccessfullyRemoved := removedAll
      outcomes := loop.1
      votableChecked := removedAll && env.makeVotablePresent
      submitted := removedAll && env.submitButtonPresent
      trace := lookupActs ++ [.reportError] ++ loop.2.2 ++ finalActs }

/-- Environment for the URL edit page entry point. -/
structure UrlEditPage where
  urlInputPresent : Bool       -- input#id-edit-url.url exists
  pendingMarkerAppears : Bool  -- waitForElement("div.urlheader h1 span.mp", …, 1000) resolves
  env : PageEnv
  deriving DecidableEq

/-- Source: `runOnURLEditPage` (lines 719-762).  Guards: no URL input → do
nothing; value not a Wikipedia link or already a Wikidata link → do nothing;
pending-edits marker present → display the pending-edits error and stop;
otherwise the convert button is created and clicked automatically, running
`fixLinkURLEdit`.  Returns the action trace. -/
def runOnURLEditPage (service : String → String → LookupReply)
    (p : UrlEditPage) : List Action :=
  if !p.urlInputPresent then []
  else if !isWikipediaLink p.env.urlValue || isWikidataLink p.env.urlValue then []
  else if p.pendingMarkerAppears then [.reportError]
  else (fixLinkURLEdit service p.env).trace

/-- Number of network calls in a trace (only the resolver's lookup makes
one). -/
def networkCallCount (tr : List Action) : Nat :=
  (tr.filter fun a => a == .networkLookup).length

/-- Number of surface-mutation control invocations in a trace: clicks on
edit/done/remove/submit controls, the URL rewrite and the checkbox toggle.
`reportError` only renders a message and is not a mutation control. -/
def mutationControlCount (tr : List Action) : Nat :=
  (tr.filter fun a =>
    a == .clickEditItem || a == .clickDialogDone || a == .clickRemoveItem ||
    a == .clickSubmit || a == .setUrlInput || a == .checkVotable).length

/-- The convert-mode outcome of an item is never left `pending`. -/
lemma convertItem_ne_pending (it : RelItemEnv) : (convertItem it).1 ≠ .pending := by
  unfold convertItem
  by_cases h1 : it.hasEditButton
  · by_cases h2 : (it.dialogAppears && it.dialogHandledOk)
    · simp [h1, h2]
    · simp [h1, h2]
  · simp [h1]

/-- The convert loop records one outcome per item and increments the
processed counter once per item. -/
lemma convertLoop_length (items : List RelItemEnv) :
    (convertLoop items).1.length = items.length ∧ (convertLoop items).2.1 = items.length := by
  induction items with
  | nil => exact ⟨rfl, rfl⟩
  | cons it rest ih => simp [convertLoop, ih.1, ih.2]

/-- No convert-loop outcome is `pending`. -/
lemma convertLoop_no_pending (items : List RelItemEnv) :
    ∀ o ∈ (convertLoop items).1, o ≠ .pending := by
  induction items with
  | nil => intro o ho; simp [convertLoop] at ho
  | cons it rest ih =>
    intro o ho
    rw [convertLoop] at ho
    rcases List.mem_cons.mp ho with h | h
    · rw [h]; exact convertItem_ne_pending it
    · exact ih o h

/-- The removal loop records one outcome per item. -/
lemma removeLoop_length (items : List RelItemEnv) :
    (removeLoop items).1.length = items.length := by
  induction items with
  | nil => rfl
  | cons it rest ih =>
    by_cases h : it.hasRemoveButton <;> simp [removeLoop, h, ih]

/-- No removal-loop outcome is `pending`. -/
lemma removeLoop_no_pending (items : List RelItemEnv) :
    ∀ o ∈ (removeLoop items).1, o ≠ .pending := by
  induction items with
  | nil => intro o ho; simp [removeLoop] at ho
  | cons it rest ih =>
    intro o ho
    rw [removeLoop] at ho
    by_cases h : it.hasRemoveButton
    · simp only [h, if_true] at ho
      rcases List.mem_cons.mp ho with h2 | h2
      · rw [h2]; exact fun hc => ItemOutcome.noConfusion hc
      · exact ih o h2
    · simp only [h] at ho
      rcases List.mem_cons.mp ho with h2 | h2
      · rw [h2]; exact fun hc => ItemOutcome.noConfusion hc
      · exact ih o h2

/-- Every outcome recorded by a completed `fixLinkURLEdit` run is
terminal. -/
lemma fixLinkURLEdit_no_pending (service : String → String → LookupReply)
    (env : PageEnv) : ∀ o ∈ (fixLinkURLEdit service env).outcomes, o ≠ .pending := by
  intro o ho
  simp only [fixLinkURLEdit] at ho
  cases hres : (getWikidataUrlFromWikipedia service env.urlValue).1 <;>
    rw [hres] at ho <;>
    by_cases he : env.hasRelationshipEditor <;>
    simp only [he, if_true, if_false, Bool.false_eq_true] at ho <;>
    first
      | exact convertLoop_no_pending env.items o ho
      | exact removeLoop_no_pending env.items o ho
      | simp at ho

/-! ## A canonical (Wikidata) reference never matches the Wikipedia article
regex

These lemmas characterise `stripLiteralCI` and `takeLettersCI` enough to
prove, for EVERY url accepted by `isWikidataLink`, that
`matchWikipediaArticle` rejects it: after the scheme, such a url continues
with `www.` (letters `www`, then a dot, where `.wikipedia.org` expects
`wikipedia` after the dot) or with `wikidata.` (letters `wikidata`, then
`.org`, where `.wikipedia.org` expects `.wikipedia`). -/

/-- A successful case-insensitive literal match splits the input into a
consumed prefix (lowering to the pattern) and the returned rest. -/
lemma stripLiteralCI_decomp : ∀ (ps cs r : List Char), stripLiteralCI ps cs = some r →
    ∃ l, cs = l ++ r ∧ l.map asciiLowerChar = ps := by
  intro ps
  induction ps with
  | nil =>
    intro cs r h
    refine ⟨[], ?_, rfl⟩
    simpa [stripLiteralCI] using h
  | cons p ps2 ih =>
    intro cs r h
    cases cs with
    | nil => simp [stripLiteralCI] at h
    | cons c cs2 =>
      by_cases hc : asciiLowerChar c = p
      · obtain ⟨l, hl1, hl2⟩ := ih cs2 r (by simpa [stripLiteralCI, hc] using h)
        exact ⟨c :: l, by rw [hl1]; rfl, by simp [hl2, hc]⟩
      · simp [stripLiteralCI, hc] at h

/-- Peeling one character off a lowered-prefix equation. -/
lemma map_lower_cons {l : List Char} {p : Char} {ps : List Char}
    (h : l.map asciiLowerChar = p :: ps) :
    ∃ c t, l = c :: t ∧ asciiLowerChar c = p ∧ t.map asciiLowerChar = ps := by
  cases l with
  | nil => simp at h
  | cons c t =>
    simp only [List.map_cons, List.cons.injEq] at h
    exact ⟨c, t, rfl, h.1, h.2⟩

/-- Lowering an upper-case letter adds 32 to its code point. -/
lemma toNat_ofNat_lower {c : Char} (h1 : 'A' ≤ c) (h2 : c ≤ 'Z') :
    (Char.ofNat (c.toNat + 32)).toNat = c.toNat + 32 := by
  have hb1 : 65 ≤ c.toNat := h1
  have hb2 : c.toNat ≤ 90 := h2
  have hv : (c.toNat + 32).isValidChar := Or.inl (by omega)
  unfold Char.ofNat
  rw [dif_pos hv]
  rfl

/-- A character that case-insensitively matches a lower-case letter is
matched by the letter class. -/
lemma isAsciiLetterCI_of_lower_letter {c p : Char} (h : asciiLowerChar c = p)
    (h1 : 'a' ≤ p) (h2 : p ≤ 'z') : isAsciiLetterCI c = true := by
  unfold asciiLowerChar at h
  by_cases hc : (decide ('A' ≤ c) && decide (c ≤ 'Z')) = true
  · simp [isAsciiLetterCI, hc]
  · rw [if_neg (by simpa using hc)] at h
    rw [h]
    simp [isAsciiLetterCI, h1, h2]

/-- A character that case-insensitively matches a code point below `A`
(such as `.`) is not matched by the letter class. -/
lemma not_isAsciiLetterCI_of_lower {c p : Char} (h : asciiLowerChar c = p)
    (hp : p.toNat < 65) : isAsciiLetterCI c = false := by
  unfold asciiLowerChar at h
  by_cases hc : (decide ('A' ≤ c) && decide (c ≤ 'Z')) = true
  · exfalso
    simp only [Bool.and_eq_true, decide_eq_true_eq] at hc
    have h1 : 65 ≤ c.toNat := hc.1
    have ht := toNat_ofNat_lower hc.1 hc.2
    rw [if_pos (by simp [hc.1, hc.2])] at h
    rw [h] at ht
    omega
  · rw [if_neg (by simpa using hc)] at h
    rw [h]
    have hna : ¬ ('a' ≤ p) := by
      intro hle
      have h97 : 97 ≤ p.toNat := hle
      omega
    have hnA : ¬ ('A' ≤ p) := by
      intro hle
      have h65 : 65 ≤ p.toNat := hle
      omega
    simp [isAsciiLetterCI, hna, hnA]

/-- `takeLettersCI` splits off exactly an all-letter prefix when the
remainder starts with a non-letter (or is empty). -/
lemma takeLettersCI_split (l1 l2 : List Char)
    (h1 : ∀ c ∈ l1, isAsciiLetterCI c = true)
    (h2 : ∀ c t, l2 = c :: t → isAsciiLetterCI c = false) :
    takeLettersCI (l1 ++ l2) = (l1, l2) := by
  induction l1 with
  | nil =>
    cases l2 with
    | nil => rfl
    | cons c t => simp [takeLettersCI, h2 c t rfl]
  | cons c l1' ih =>
    have hc := h1 c (List.mem_cons_self _ _)
    simp [takeLettersCI, hc, ih fun x hx => h1 x (List.mem_cons_of_mem _ hx)]

/-- Core fact: once the scheme is stripped, a `wikidata.org/wiki/Q...` tail
(with or without a leading `www.`) can never satisfy the article regex's
`([a-z]+)\.wikipedia\.org\/wiki\/` part. -/
lemma matchWikipediaArticle_rejects_wikidata (url : String)
    (h : isWikidataLink url = true) : matchWikipediaArticle url = none := by
  unfold isWikidataLink at h
  unfold matchWikipediaArticle
  cases hs : stripScheme url.data with
  | none =>
    simp only [hs] at h
    simp at h
  | some rest =>
    simp only [hs] at h ⊢
    rcases Bool.or_eq_true _ _ |>.mp h with hA | hB
    · -- with the optional `www.` consumed
      cases hw : stripLiteralCI "www.".data rest with
      | none =>
        simp only [hw] at hA
        simp at hA
      | some r =>
        simp only [hw] at hA
        unfold isWikidataLinkCore at hA
        cases hst : stripLiteralCI "wikidata.org/wiki/q".data r with
        | none =>
          simp only [hst] at hA
          simp at hA
        | some r2 =>
          obtain ⟨lw, hrw, hmw⟩ := stripLiteralCI_decomp _ rest r hw
          obtain ⟨lc, hrc, hmc⟩ := stripLiteralCI_decomp _ r r2 hst
          rw [show ("www.".data) = ['w', 'w', 'w', '.'] from rfl] at hmw
          obtain ⟨w1, t1, rfl, hw1, hmw⟩ := map_lower_cons hmw
          obtain ⟨w2, t2, rfl, hw2, hmw⟩ := map_lower_cons hmw
          obtain ⟨w3, t3, rfl, hw3, hmw⟩ := map_lower_cons hmw
          obtain ⟨dd, t4, rfl, hdd, hmw⟩ := map_lower_cons hmw
          have ht4 : t4 = [] := by simpa using hmw
          subst ht4
          rw [show ("wikidata.org/wiki/q".data)
              = 'w' :: 'i' :: 'k' :: 'i' :: 'd' :: "ata.org/wiki/q".data from rfl] at hmc
          obtain ⟨c0, u0, rfl, hc0, hmc⟩ := map_lower_cons hmc
          obtain ⟨c1, u1, rfl, hc1, hmc⟩ := map_lower_cons hmc
          obtain ⟨c2, u2, rfl, hc2, hmc⟩ := map_lower_cons hmc
          obtain ⟨c3, u3, rfl, hc3, hmc⟩ := map_lower_cons hmc
          obtain ⟨c4, u4, rfl, hc4, hmc⟩ := map_lower_cons hmc
          subst hrc
          have hrest : rest
              = [w1, w2, w3] ++ (dd :: (c0 :: c1 :: c2 :: c3 :: c4 :: u4 ++ r2)) := by
            rw [hrw]
            rfl
          rw [hrest, takeLettersCI_split [w1, w2, w3]
              (dd :: (c0 :: c1 :: c2 :: c3 :: c4 :: u4 ++ r2))
              (by
                intro x hx
                rcases List.mem_cons.mp hx with rfl | hx2
                · exact isAsciiLetterCI_of_lower_letter hw1 (by decide) (by decide)
                rcases List.mem_cons.mp hx2 with rfl | hx3
                · exact isAsciiLetterCI_of_lower_letter hw2 (by decide) (by decide)
                rcases List.mem_cons.mp hx3 with rfl | hx4
                · exact isAsciiLetterCI_of_lower_letter hw3 (by decide) (by decide)
                · simp at hx4)
              (by
                intro x t hx
                obtain ⟨rfl, -⟩ := List.cons.injEq .. |>.mp hx.symm |>.imp id id
                exact not_isAsciiLetterCI_of_lower hdd (by decide))]
          simp [stripLiteralCI, hdd, hc0, hc1, hc2, hc3, hc4]
    · -- without the `www.` prefix
      unfold isWikidataLinkCore at hB
      cases hst : stripLiteralCI "wikidata.org/wiki/q".data rest with
      | none =>
        simp only [hst] at hB
        simp at hB
      | some r2 =>
        obtain ⟨lc, hrc, hmc⟩ := stripLiteralCI_decomp _ rest r2 hst
        rw [show ("wikidata.org/wiki/q".data)
            = 'w' :: 'i' :: 'k' :: 'i' :: 'd' :: 'a' :: 't' :: 'a' :: '.' :: 'o'
              :: "rg/wiki/q".data from rfl] at hmc
        obtain ⟨c0, u0, rfl, hc0, hmc⟩ := map_lower_cons hmc
        obtain ⟨c1, u1, rfl, hc1, hmc⟩ := map_lower_cons hmc
        obtain ⟨c2, u2, rfl, hc2, hmc⟩ := map_lower_cons hmc
        obtain ⟨c3, u3, rfl, hc3, hmc⟩ := map_lower_cons hmc
        obtain ⟨c4, u4, rfl, hc4, hmc⟩ := map_lower_cons hmc
        obtain ⟨c5, u5, rfl, hc5, hmc⟩ := map_lower_cons hmc
        obtain ⟨c6, u6, rfl, hc6, hmc⟩ := map_lower_cons hmc
        obtain ⟨c7, u7, rfl, hc7, hmc⟩ := map_lower_cons hmc
        obtain ⟨d8, u8, rfl, hd8, hmc⟩ := map_lower_cons hmc
        obtain ⟨c9, u9, rfl, hc9, hmc⟩ := map_lower_cons hmc
        subst hrc
        have hre : (c0 :: c1 :: c2 :: c3 :: c4 :: c5 :: c6 :: c7 :: d8 :: c9 :: u9) ++ r2
            = [c0, c1, c2, c3, c4, c5, c6, c7] ++ (d8 :: c9 :: (u9 ++ r2)) := by
          simp
        rw [hre, takeLettersCI_split [c0, c1, c2, c3, c4, c5, c6, c7]
            (d8 :: c9 :: (u9 ++ r2))
            (by
              intro x hx
              rcases List.mem_cons.mp hx with rfl | hx1
              · exact isAsciiLetterCI_of_lower_letter hc0 (by decide) (by decide)
              rcases List.mem_cons.mp hx1 with rfl | hx2
              · exact isAsciiLetterCI_of_lower_letter hc1 (by decide) (by decide)
              rcases List.mem_cons.mp hx2 with rfl | hx3
              · exact isAsciiLetterCI_of_lower_letter hc2 (by decide) (by decide)
              rcases List.mem_cons.mp hx3 with rfl | hx4
              · exact isAsciiLetterCI_of_lower_letter hc3 (by decide) (by decide)
              rcases List.mem_cons.mp hx4 with rfl | hx5
              · exact isAsciiLetterCI_of_lower_letter hc4 (by decide) (by decide)
              rcases List.mem_cons.mp hx5 with rfl | hx6
              · exact isAsciiLetterCI_of_lower_letter hc5 (by decide) (by decide)
              rcases List.mem_cons.mp hx6 with rfl | hx7
              · exact isAsciiLetterCI_of_lower_letter hc6 (by decide) (by decide)
              rcases List.mem_cons.mp hx7 with rfl | hx8
              · exact isAsciiLetterCI_of_lower_letter hc7 (by decide) (by decide)
              · simp at hx8)
            (by
              intro x t hx
              obtain ⟨rfl, -⟩ := List.cons.injEq .. |>.mp hx.symm |>.imp id id
              exact not_isAsciiLetterCI_of_lower hd8 (by decide))]
        simp [stripLiteralCI, hd8, hc9]

/-- Hence resolve rejects every canonical (Wikidata-form) reference with the
invalid-format error, before making any transport call. -/
lemma resolve_invalidFormat_of_isWikidataLink (service : String → String → LookupReply)
    (url : String) (h : isWikidataLink url = true) :
    getWikidataUrlFromWikipedia service url = (.invalidFormatError, ⟨0, 0⟩) := by
  have hp : parseWikipediaUrl url = .nullResult := by
    unfold parseWikipediaUrl
    rw [matchWikipediaArticle_rejects_wikidata url h]
  simp [getWikidataUrlFromWikipedia, hp]

/-! ## Concrete fixtures used by several theorems below -/

/-- A lookup service for which every article has the Wikidata item Q42. -/
def sampleService : String → String → LookupReply := fun _ _ => .page (some "Q42")

/-- An item whose conversion goes through cleanly. -/
def itemOk : RelItemEnv :=
  { hasEditButton := true, dialogAppears := true, dialogHandledOk := true,
    dialogStillPresent := false, doneButtonPresent := false, hasRemoveButton := true }

/-- The failure-injected item: it has an edit button, but its relationship
dialog never appears (the `waitForElement` for the dialog times out). -/
def itemStuck : RelItemEnv :=
  { hasEditButton := true, dialogAppears := false, dialogHandledOk := false,
    dialogStillPresent := false, doneButtonPresent := false, hasRemoveButton := true }

/-- A URL edit page carrying a Wikipedia link, a relationship editor with
three items of which the third fails conversion, and both finalize
controls. -/
def pageThreeItems : PageEnv :=
  { urlValue := "https://en.wikipedia.org/wiki/Foo", hasRelationshipEditor := true,
    items := [itemOk, itemOk, itemStuck], makeVotablePresent := true,
    submitButtonPresent := true }

/-- The same page with its URL already rewritten to the canonical Wikidata
form. -/
def canonicalPage : UrlEditPage :=
  { urlInputPresent := true, pendingMarkerAppears := false,
    env := { pageThreeItems with urlValue := "https://www.wikidata.org/wiki/Q42" } }

/-- The page with the pending-edits marker set. -/
def pendingPage : UrlEditPage :=
  { urlInputPresent := true, pendingMarkerAppears := true, env := pageThreeItems }

/-! ## Claim theorems -/

/-- C1: the claim fails on the code.  At the failing input — resolution
succeeds, the relationship editor holds three items with actionable edit
controls, and the third item's conversion fails because its dialog never
appears — the code's catch path still increments
`relationshipsProcessedCount` (line 623), so `allRelationshipsHandled` is
computed as `true` and the submit button IS clicked, although one item ended
`failed` (neither Converted nor lacking an actionable control).  The claim —
matching the code's own comment `// Flag to track if all relationships were
either converted or removed` (line 572) and its thereby-unreachable
`Not submitting automatically` branch (line 664) — requires
`allItemsHandled = false` and no submission here. -/
theorem c1_failed_item_still_submitted :
    (fixLinkURLEdit sampleService pageThreeItems).conversionSuccessful = true ∧
    (fixLinkURLEdit sampleService pageThreeItems).outcomes
      = [.converted, .converted, .failed] ∧
    (fixLinkURLEdit sampleService pageThreeItems).allRelationshipsHandled = true ∧
    (fixLinkURLEdit sampleService pageThreeItems).submitted = true := by
  decide

/-- C2 counterexample: the resolver's single lookup is NOT issued through the
rate-limited dispatcher.  On a successful resolution the dispatcher call
count is 0 and the direct `fetchURL` call count is 1, refuting the claim's
"issue exactly one rate-limited lookup-service call via the
RateLimitedDispatcher". -/
theorem c2_lookup_bypasses_dispatcher :
    (getWikidataUrlFromWikipedia sampleService "https://en.wikipedia.org/wiki/Foo").2.dispatcherCalls
      = 0 ∧
    (getWikidataUrlFromWikipedia sampleService "https://en.wikipedia.org/wiki/Foo").2.directFetchCalls
      = 1 ∧
    (getWikidataUrlFromWikipedia sampleService "https://en.wikipedia.org/wiki/Foo").1
      = .ok "https://www.wikidata.org/wiki/Q42" := by
  decide

/-- C2 (amended): resolve follows the five-step algorithm, except that its
single lookup call goes directly through the plain transport (`fetchURL`) and
not through the rate-limited dispatcher: a reference that fails to parse
fails with the invalid-format error before any call; a parsed reference
causes exactly one direct (and zero dispatched) lookup call, after which a
missing page fails as not-found, a missing cross-reference property fails as
no-mapping, a transport failure is wrapped and not retried, and otherwise
the canonical target URI is built from the returned identifier. -/
theorem c2_resolution_follows_algorithm (service : String → String → LookupReply)
    (url : String) :
    (parseWikipediaUrl url = .nullResult →
        getWikidataUrlFromWikipedia service url = (.invalidFormatError, ⟨0, 0⟩)) ∧
    (∀ lang title, parseWikipediaUrl url = .ok lang title →
      ((getWikidataUrlFromWikipedia service url).2.directFetchCalls = 1 ∧
        (getWikidataUrlFromWikipedia service url).2.dispatcherCalls = 0) ∧
      (service lang title = .pageMissing →
        (getWikidataUrlFromWikipedia service url).1 = .failedNotFound) ∧
      (service lang title = .transportFailure →
        (getWikidataUrlFromWikipedia service url).1 = .failedTransport) ∧
      (service lang title = .page none →
        (getWikidataUrlFromWikipedia service url).1 = .failedNoMapping) ∧
      (∀ q, service lang title = .page (some q) →
        (getWikidataUrlFromWikipedia service url).1
          = .ok ("https://www.wikidata.org/wiki/" ++ q))) := by
  constructor
  · intro h
    simp [getWikidataUrlFromWikipedia, h]
  · intro lang title h
    refine ⟨?_, ?_, ?_, ?_, ?_⟩
    · rcases hr : service lang title with _ | _ | q
      · simp [getWikidataUrlFromWikipedia, h, hr]
      · simp [getWikidataUrlFromWikipedia, h, hr]
      · cases q <;> simp [getWikidataUrlFromWikipedia, h, hr]
    · intro hr
      simp [getWikidataUrlFromWikipedia, h, hr]
    · intro hr
      simp [getWikidataUrlFromWikipedia, h, hr]
    · intro hr
      simp [getWikidataUrlFromWikipedia, h, hr]
    · intro q hr
      simp [getWikidataUrlFromWikipedia, h, hr]

/-- C2 witness: the amended theorem applied at a concrete reference and
service. -/
theorem c2_resolution_follows_algorithm_witness :
    (getWikidataUrlFromWikipedia sampleService "https://en.wikipedia.org/wiki/Foo").1
      = .ok ("https://www.wikidata.org/wiki/" ++ "Q42") :=
  (((c2_resolution_follows_algorithm sampleService
      "https://en.wikipedia.org/wiki/Foo").2 "en" "Foo" (by decide)).2.2.2.2) "Q42" (by decide)

/-- C3 counterexample: resolve does NOT short-circuit as a no-op success on a
reference already in canonical (Wikidata) form — it fails with the
invalid-format error, because the Wikipedia article regex does not match a
Wikidata URL. -/
theorem c3_resolve_rejects_canonical_reference :
    isWikidataLink "https://www.wikidata.org/wiki/Q42" = true ∧
    (getWikidataUrlFromWikipedia sampleService "https://www.wikidata.org/wiki/Q42").1
      = .invalidFormatError := by
  decide

/-- C3 (amended): idempotence against an already-rewritten reference is
enforced by the caller, not by resolve: for every page whose URL input is
already a Wikidata link, `runOnURLEditPage` returns without performing any
action at all (empty trace, zero network calls, zero mutation-control
invocations), so re-running the whole conversion is a no-op; resolve itself
does not succeed returning the same identifier on such a canonical
reference — it rejects every Wikidata-form reference with the
invalid-format error, making no transport call. -/
theorem c3_rerun_on_canonical_is_noop (service : String → String → LookupReply)
    (p : UrlEditPage) (h : isWikidataLink p.env.urlValue = true) :
    runOnURLEditPage service p = [] ∧
    networkCallCount (runOnURLEditPage service p) = 0 ∧
    mutationControlCount (runOnURLEditPage service p) = 0 ∧
    getWikidataUrlFromWikipedia service p.env.urlValue = (.invalidFormatError, ⟨0, 0⟩) := by
  have hguard : (!isWikipediaLink p.env.urlValue || isWikidataLink p.env.urlValue) = true := by
    rw [h]
    exact Bool.or_true _
  have htrace : runOnURLEditPage service p = [] := by
    unfold runOnURLEditPage
    by_cases hu : p.urlInputPresent
    · simp [hu, hguard]
    · simp [hu]
  exact ⟨htrace, by rw [htrace]; rfl, by rw [htrace]; rfl,
    resolve_invalidFormat_of_isWikidataLink service p.env.urlValue h⟩

/-- C3 witness: the amended theorem applied to a concrete page carrying a
canonical Wikidata reference. -/
theorem c3_rerun_on_canonical_is_noop_witness :
    runOnURLEditPage sampleService canonicalPage = [] :=
  (c3_rerun_on_canonical_is_noop sampleService canonicalPage (by decide)).1

/-- C4: for a channel with interval I and one lane, the m-th (0-based)
submitted operation is dispatched at m·I, so the last of M operations starts
no earlier than (M−1)·I after the first; with K lanes, lanes are chosen
round-robin (the m-th submission goes to lane (m+1) mod K, matching the
pre-incremented cursor) and the m-th submission is dispatched after exactly
(number of earlier submissions routed to its lane) pacing intervals
(per-lane FIFO pacing); consequently no lane ever dispatches two operations
closer together than I. -/
theorem c4_rate_limiter_pacing (I K : Nat) :
    (∀ m, rateLimitTimeOf I 1 m = m * I) ∧
    (∀ M, rateLimitTimeOf I 1 0 + (M - 1) * I ≤ rateLimitTimeOf I 1 (M - 1)) ∧
    (∀ m, rateLimitLaneOf I K m = (m + 1) % K) ∧
    (∀ m, rateLimitTimeOf I K m = priorOnLane K m ((m + 1) % K) * I) ∧
    (∀ m m', m < m' → rateLimitLaneOf I K m = rateLimitLaneOf I K m' →
        rateLimitTimeOf I K m + I ≤ rateLimitTimeOf I K m') := by
  refine ⟨?_, ?_, ?_, ?_, ?_⟩
  · intro m
    simp [rateLimitTimeOf, queueDispatchTime_eq]
  · intro M
    simp [rateLimitTimeOf, queueDispatchTime_eq]
  · intro m
    by_cases hK : K = 1
    · subst hK
      simp [rateLimitLaneOf, Nat.mod_one]
    · simp [rateLimitLaneOf, hK, multiLaneOf_eq]
  · intro m
    by_cases hK : K = 1
    · subst hK
      simp [rateLimitTimeOf, queueDispatchTime_eq, priorOnLane_one, Nat.mod_one]
    · simp [rateLimitTimeOf, hK, multiDispatchTime_eq]
  · intro m m' hlt hlane
    by_cases hK : K = 1
    · subst hK
      simp only [rateLimitTimeOf, if_pos rfl, queueDispatchTime_eq]
      calc m * I + I = (m + 1) * I := by ring
        _ ≤ m' * I := Nat.mul_le_mul hlt (le_refl I)
    · have hl : (m + 1) % K = (m' + 1) % K := by
        simpa [rateLimitLaneOf, hK, multiLaneOf_eq] using hlane
      simp only [rateLimitTimeOf, hK, if_false, multiDispatchTime_eq]
      rw [← hl]
      have hstep : priorOnLane K (m + 1) ((m + 1) % K)
          = priorOnLane K m ((m + 1) % K) + 1 := by
        rw [priorOnLane_succ]
        simp
      have hmono : priorOnLane K (m + 1) ((m + 1) % K)
          ≤ priorOnLane K m' ((m + 1) % K) := priorOnLane_le K _ hlt
      have h1 : priorOnLane K m ((m + 1) % K) + 1 ≤ priorOnLane K m' ((m + 1) % K) := by
        omega
      calc priorOnLane K m ((m + 1) % K) * I + I
          = (priorOnLane K m ((m + 1) % K) + 1) * I := by ring
        _ ≤ priorOnLane K m' ((m + 1) % K) * I := Nat.mul_le_mul h1 (le_refl I)

/-- C4 witness: with interval 1000 and two lanes, submissions 0 and 2 land on
the same lane and their dispatch times are at least one interval apart. -/
theorem c4_rate_limiter_pacing_witness :
    rateLimitTimeOf 1000 2 0 + 1000 ≤ rateLimitTimeOf 1000 2 2 :=
  (c4_rate_limiter_pacing 1000 2).2.2.2.2 0 2 (by decide) (by decide)

/-- C5: every submitted operation's promise settles with exactly that
operation's outcome — success or propagated failure, in submission order, so
no result is ever dropped — and the dispatch times are a function of the
submission count alone: they are the same whatever the operations' outcomes
are, so a failing operation still consumes its pacing slot and never blocks
its lane. -/
theorem c5_results_delivered_pacing_unchanged {ε α : Type}
    (I : Nat) (s : PacingQueue) (ops : List (Except ε α)) :
    ((queueRunOps I s ops).map Prod.fst = ops) ∧
    ((queueRunOps I s ops).map Prod.snd
        = (List.range ops.length).map fun k => s.chainTime + k * I) ∧
    (∀ ops2 : List (Except ε α), ops.length = ops2.length →
        (queueRunOps I s ops).map Prod.snd = (queueRunOps I s ops2).map Prod.snd) := by
  refine ⟨queueRunOps_map_fst I s ops, queueRunOps_map_snd I s ops, ?_⟩
  intro ops2 hlen
  rw [queueRunOps_map_snd, queueRunOps_map_snd, hlen]

/-- C5 witness: a failing first operation leaves the dispatch schedule
identical to an all-success run. -/
theorem c5_results_delivered_pacing_unchanged_witness :
    (queueRunOps 1000 ⟨0⟩
        ([Except.error "HTTP 500", Except.ok 7] : List (Except String Nat))).map Prod.snd
      = (queueRunOps 1000 ⟨0⟩
        ([Except.ok 1, Except.ok 2] : List (Except String Nat))).map Prod.snd :=
  (c5_results_delivered_pacing_unchanged 1000 ⟨0⟩
      ([Except.error "HTTP 500", Except.ok 7] : List (Except String Nat))).2.2
    [Except.ok 1, Except.ok 2] rfl

/-- C6: `waitForElement` resolves with the observed element using no change
notification when the condition already holds at call time; otherwise it
re-checks on each notification, resolving at the first qualifying one; if
the deadline timer fires first it rejects with the timeout error and
disconnects, and afterwards no event can change the settled state (at most
one of resolve / timeout ever fires); `waitForElementRemoval` behaves
symmetrically, resolving with no value as soon as the condition stops
holding, including immediately at call time without ever subscribing. -/
theorem c6_wait_primitives (σ α : Type) (check : σ → Option α) (present : σ → Bool)
    (s0 : σ) (a : α) (events rest : List (WaitEvent σ)) (ns : List σ) :
    (check s0 = some a →
      waitForElementRun check s0 events = ⟨some (.resolvedWith a), false, false⟩) ∧
    (check s0 = none → (∀ s ∈ ns, check s = none) →
      waitForElementRun check s0 (ns.map .notify ++ .timerFire :: rest)
        = ⟨some .timedOut, false, false⟩) ∧
    (check s0 = none → (∀ s ∈ ns, check s = none) → ∀ s1, check s1 = some a →
      waitForElementRun check s0 (ns.map .notify ++ .notify s1 :: rest)
        = ⟨some (.resolvedWith a), false, false⟩) ∧
    (∀ r, (waitForElementRun check s0 events).settled = some r →
      waitForElementRun check s0 (events ++ rest) = waitForElementRun check s0 events) ∧
    (present s0 = false →
      waitForElementRemovalRun present s0 events = ⟨some (.resolvedWith ()), false, false⟩) ∧
    (present s0 = true → (∀ s ∈ ns, present s = true) → ∀ s1, present s1 = false →
      waitForElementRemovalRun present s0 (ns.map .notify ++ .notify s1 :: rest)
        = ⟨some (.resolvedWith ()), false, false⟩) ∧
    (present s0 = true → (∀ s ∈ ns, present s = true) →
      waitForElementRemovalRun present s0 (ns.map .notify ++ .timerFire :: rest)
        = ⟨some .timedOut, false, false⟩) := by
  refine ⟨?_, ?_, ?_, ?_, ?_, ?_, ?_⟩
  · intro h
    simp only [waitForElementRun, h]
    exact foldl_stepAppearance_frozen check _ rfl rfl events
  · intro h0 hns
    rw [waitForElementRun_append]
    have hA : waitForElementRun check s0 (ns.map .notify) = ⟨none, true, true⟩ := by
      simp only [waitForElementRun, h0]
      exact foldl_stepAppearance_no_hit check ns hns
    rw [hA, List.foldl_cons]
    have hstep : stepAppearance check ⟨none, true, true⟩ .timerFire
        = (⟨some .timedOut, false, false⟩ : WaitState α) := by
      simp [stepAppearance, settlePromise]
    rw [hstep]
    exact foldl_stepAppearance_frozen check _ rfl rfl rest
  · intro h0 hns s1 h1
    rw [waitForElementRun_append]
    have hA : waitForElementRun check s0 (ns.map .notify) = ⟨none, true, true⟩ := by
      simp only [waitForElementRun, h0]
      exact foldl_stepAppearance_no_hit check ns hns
    rw [hA, List.foldl_cons]
    have hstep : stepAppearance check ⟨none, true, true⟩ (.notify s1)
        = (⟨some (.resolvedWith a), false, false⟩ : WaitState α) := by
      simp [stepAppearance, h1, settlePromise]
    rw [hstep]
    exact foldl_stepAppearance_frozen check _ rfl rfl rest
  · intro r hr
    rw [waitForElementRun_append]
    have hs : (waitForElementRun check s0 events).settled.isSome = true := by
      rw [hr]
      rfl
    obtain ⟨hc, ht⟩ := waitForElementRun_invariant check s0 events hs
    exact foldl_stepAppearance_frozen check _ hc ht rest
  · intro h
    simp [waitForElementRemovalRun, h]
  · intro h0 hns s1 h1
    unfold waitForElementRemovalRun
    rw [if_pos h0, List.foldl_append, foldl_stepRemoval_still_present present ns hns,
      List.foldl_cons]
    have hstep : stepRemoval present ⟨none, true, true⟩ (.notify s1)
        = (⟨some (.resolvedWith ()), false, false⟩ : WaitState Unit) := by
      simp [stepRemoval, h1, settlePromise]
    rw [hstep]
    exact foldl_stepRemoval_frozen present _ rfl rfl rest
  · intro h0 hns
    unfold waitForElementRemovalRun
    rw [if_pos h0, List.foldl_append, foldl_stepRemoval_still_present present ns hns,
      List.foldl_cons]
    have hstep : stepRemoval present ⟨none, true, true⟩ .timerFire
        = (⟨some .timedOut, false, false⟩ : WaitState Unit) := by
      simp [stepRemoval, settlePromise]
    rw [hstep]
    exact foldl_stepRemoval_frozen present _ rfl rfl rest

/-- C6 witness: a concrete run in which the element (state 5) never appears
before the deadline: the waiter times out, disconnects, and a later
notification that would match can no longer change the settled state. -/
theorem c6_wait_primitives_witness :
    waitForElementRun (fun n : Nat => if n = 5 then some n else none) 0
      ([1, 2].map WaitEvent.notify ++ .timerFire :: [WaitEvent.notify 5])
      = ⟨some .timedOut, false, false⟩ :=
  (c6_wait_primitives Nat Nat (fun n : Nat => if n = 5 then some n else none)
      (fun n => !(n == 5)) 0 5 [] [WaitEvent.notify 5] [1, 2]).2.1 (by decide) (by decide)

/-- C7: if the pending-edit marker is detected when the entry point runs, it
reports the conflict and returns before any network call and before any
surface-mutation control is invoked: the dispatcher/network call count and
the mutation-control call count of the produced trace are both zero, and
(when the guards that make the page eligible hold) the entire trace is the
single conflict report. -/
theorem c7_pending_marker_fails_fast (service : String → String → LookupReply)
    (p : UrlEditPage) (h : p.pendingMarkerAppears = true) :
    networkCallCount (runOnURLEditPage service p) = 0 ∧
    mutationControlCount (runOnURLEditPage service p) = 0 ∧
    (p.urlInputPresent = true → isWikipediaLink p.env.urlValue = true →
      isWikidataLink p.env.urlValue = false →
      runOnURLEditPage service p = [.reportError]) := by
  by_cases h1 : p.urlInputPresent
  · by_cases h2 : (!isWikipediaLink p.env.urlValue || isWikidataLink p.env.urlValue)
    · have htrace : runOnURLEditPage service p = [] := by
        unfold runOnURLEditPage
        simp [h1, h2]
      refine ⟨by rw [htrace]; rfl, by rw [htrace]; rfl, ?_⟩
      intro _ hw hd
      rw [hw, hd] at h2
      simp at h2
    · have htrace : runOnURLEditPage service p = [.reportError] := by
        unfold runOnURLEditPage
        simp [h1, h2, h]
      exact ⟨by rw [htrace]; rfl, by rw [htrace]; rfl, fun _ _ _ => htrace⟩
  · have htrace : runOnURLEditPage service p = [] := by
      unfold runOnURLEditPage
      simp [h1]
    refine ⟨by rw [htrace]; rfl, by rw [htrace]; rfl, ?_⟩
    intro hu
    exact absurd hu (by simpa using h1)

/-- C7 witness: the theorem applied to the concrete pending-marked page. -/
theorem c7_pending_marker_fails_fast_witness :
    runOnURLEditPage sampleService pendingPage = [.reportError] :=
  (c7_pending_marker_fails_fast sampleService pendingPage rfl).2.2 rfl (by decide) (by decide)

/-- C8: after convert- or remove-mode processing, every item is in exactly
one terminal outcome and never still pending — including the
failure-injected case where the dialog never appears, in which the failure
is caught locally, at most one best-effort recovery click on the dialog's
commit control is made (exactly when the dialog is still present and has
one), the item is marked failed, and processing continues: the loops record
one terminal outcome per item, and every outcome of a completed
`fixLinkURLEdit` run is terminal before the verdict flags are computed. -/
theorem c8_every_item_terminal (it : RelItemEnv) (items : List RelItemEnv)
    (service : String → String → LookupReply) (env : PageEnv) :
    ((convertItem it).1 ≠ .pending) ∧
    ((convertItem it).2.count Action.clickDialogDone ≤ 1) ∧
    (it.hasEditButton = true → (it.dialogAppears && it.dialogHandledOk) = false →
      (convertItem it).1 = .failed ∧
      (convertItem it).2.count Action.clickDialogDone
        = (if it.dialogStillPresent && it.doneButtonPresent then 1 else 0)) ∧
    ((convertLoop items).1.length = items.length) ∧
    ((removeLoop items).1.length = items.length) ∧
    (∀ o ∈ (convertLoop items).1, o ≠ .pending) ∧
    (∀ o ∈ (removeLoop items).1, o ≠ .pending) ∧
    (∀ o ∈ (fixLinkURLEdit service env).outcomes, o ≠ .pending) := by
  refine ⟨convertItem_ne_pending it, ?_, ?_, (convertLoop_length items).1,
    removeLoop_length items, convertLoop_no_pending items, removeLoop_no_pending items,
    fixLinkURLEdit_no_pending service env⟩
  · obtain ⟨eb, da, dh, dp, dbp, rb⟩ := it
    cases eb <;> cases da <;> cases dh <;> cases dp <;> cases dbp <;> cases rb <;> decide
  · obtain ⟨eb, da, dh, dp, dbp, rb⟩ := it
    cases eb <;> cases da <;> cases dh <;> cases dp <;> cases dbp <;> cases rb <;> decide

/-- C8 witness: the failure-injected item (dialog never appears) ends
failed, with zero recovery clicks since the dialog is not present during
recovery. -/
theorem c8_every_item_terminal_witness :
    (convertItem itemStuck).1 = .failed ∧
    (convertItem itemStuck).2.count Action.clickDialogDone
      = (if itemStuck.dialogStillPresent && itemStuck.doneButtonPresent then 1 else 0) :=
  (c8_every_item_terminal itemStuck [] sampleService pageThreeItems).2.2.1 rfl (by decide)

/-- C9: there is an input matching the Wikipedia article URL shape whose
title segment carries a malformed percent-encoding (a title ending in
`%E`): the regex matches, but `decodeURIComponent` throws a `URIError`, so
`parseWikipediaUrl` raises instead of returning null; the error arises
before `getWikidataUrlFromWikipedia`'s try block, so the resolution fails —
for every lookup service, and with zero transport calls — with an error
outside the documented wrapped taxonomy. -/
theorem c9_uri_error_escapes (service : String → String → LookupReply) :
    matchWikipediaArticle "https://en.wikipedia.org/wiki/Foo%E" = some ("en", "Foo%E") ∧
    parseWikipediaUrl "https://en.wikipedia.org/wiki/Foo%E" = .uriError ∧
    getWikidataUrlFromWikipedia service "https://en.wikipedia.org/wiki/Foo%E"
      = (.uriError, ⟨0, 0⟩) := by
  refine ⟨by decide, by decide, ?_⟩
  have h : parseWikipediaUrl "https://en.wikipedia.org/wiki/Foo%E" = .uriError := by decide
  simp [getWikidataUrlFromWikipedia, h]

/-- C10: in a single-lane channel the dispatch time of the n-th submitted
operation is n·I — determined by the pacing chain alone, identical for any
durations of equal count, and in particular independent of earlier
operations' completions; when an operation runs longer than the interval,
the next operation is dispatched before it completes (both in flight in the
same lane), and a long-enough earlier operation even completes after its
successor — dispatch order is FIFO but completion order is not
guaranteed. -/
theorem c10_pacing_chain_ignores_completion (I : Nat) (durs : List Nat) :
    ((queueRunTimed I ⟨0⟩ durs).map Prod.fst
        = (List.range durs.length).map fun k => k * I) ∧
    (∀ durs2 : List Nat, durs.length = durs2.length →
        (queueRunTimed I ⟨0⟩ durs).map Prod.fst
          = (queueRunTimed I ⟨0⟩ durs2).map Prod.fst) ∧
    (∀ n d, durs.get? n = some d →
        (queueRunTimed I ⟨0⟩ durs).get? n = some (n * I, n * I + d)) ∧
    (∀ n d, durs.get? n = some d → I < d → ∀ q,
        (queueRunTimed I ⟨0⟩ durs).get? (n + 1) = some q → q.1 < n * I + d) ∧
    (∀ n d d', durs.get? n = some d → durs.get? (n + 1) = some d' → I + d' < d →
        ∀ p q, (queueRunTimed I ⟨0⟩ durs).get? n = some p →
          (queueRunTimed I ⟨0⟩ durs).get? (n + 1) = some q → q.2 < p.2) := by
  refine ⟨?_, ?_, ?_, ?_, ?_⟩
  · rw [queueRunTimed_map_fst]
    simp
  · intro durs2 hlen
    rw [queueRunTimed_map_fst, queueRunTimed_map_fst, hlen]
  · intro n d hd
    rw [queueRunTimed_zero_get?, hd]
    rfl
  · intro n d hd hId q hq
    rw [queueRunTimed_zero_get?] at hq
    cases hget : durs.get? (n + 1) with
    | none =>
      rw [hget] at hq
      simp at hq
    | some d2 =>
      rw [hget] at hq
      simp only [Option.map_some', Option.some.injEq] at hq
      subst hq
      show (n + 1) * I < n * I + d
      rw [Nat.succ_mul]
      exact Nat.add_lt_add_left hId (n * I)
  · intro n d d' hd hd' hlt p q hp hq
    rw [queueRunTimed_zero_get?, hd] at hp
    rw [queueRunTimed_zero_get?, hd'] at hq
    simp only [Option.map_some', Option.some.injEq] at hp hq
    subst hp
    subst hq
    show (n + 1) * I + d' < n * I + d
    rw [Nat.succ_mul, Nat.add_assoc]
    exact Nat.add_lt_add_left hlt (n * I)

/-- C10 witness: with interval 100 and durations [250, 30], the first
operation is dispatched at 0 and the second at 100, before the first
completes at 250. -/
theorem c10_pacing_chain_ignores_completion_witness :
    (queueRunTimed 100 ⟨0⟩ [250, 30]).get? 0 = some (0 * 100, 0 * 100 + 250) ∧
    ((100 : Nat), (130 : Nat)).1 < 0 * 100 + 250 :=
  ⟨(c10_pacing_chain_ignores_completion 100 [250, 30]).2.2.1 0 250 rfl,
    (c10_pacing_chain_ignores_completion 100 [250, 30]).2.2.2.1 0 250 rfl (by decide)
      (100, 130) (by decide)⟩

end WpToWd
